import Mathlib

/-!
Verification of the IRC message-parsing and command-representation layer
of the chat daemon (file irc/commands.go): the line tokenizer
(parseArg / parseLine), the verb registry and dispatcher (ParseCommand,
parseCommandFuncs), the per-verb command constructors, and the user-mode
flag decoder (NewUserModeCommand).

Modelling conventions:

* A Go string is modelled as `List Char`, its sequence of Unicode code
  points.  Every string operation the layer performs (SplitN on a space,
  Split on commas, a ":" head test, and rune iteration through
  stringToRunes / utf8.DecodeRuneInString) works code point by code
  point, so this carrier is faithful.
* A Go runtime panic (out-of-range slice index, `make` with a negative
  length) is modelled as `none`; a reached `return value, err` is
  `some`.  Constructors therefore return `Option (Except CmdError Cmd)`.
* The Go `map[string]string` of JoinCommand is modelled by its sequence
  of assignments (channel, key) in program order; reading the map is
  `joinChannelsGet`, a left fold in which a later assignment to the same
  name overwrites an earlier one, exactly as in a Go map.
* `goToUpper` models strings.ToUpper, which applies the Unicode simple
  upper-case mapping (unicode.ToUpper of the Go standard library) to
  every code point.
-/

namespace AtlChat

/-- A Go string as its sequence of Unicode code points. -/
abbrev Str := List Char

/-- Code points of a Lean string literal; used to write concrete inputs. -/
def str (s : String) : Str := s.toList

/-- The two error values of the layer: NotEnoughArgsError
("not enough arguments") and ErrParseCommand ("failed to parse message"). -/
inductive CmdError where
  | NotEnoughArgsError
  | ErrParseCommand
  deriving DecidableEq

/-- One atomic user-mode change: `mode` is the flag character and
`add` is true for an addition, false for a removal. -/
structure ModeChange where
  mode : Char
  add : Bool
  deriving DecidableEq

/-- The command variants constructed by the layer, with the fields the
constructors fill.  JoinCommand stores the sequence of map assignments
(channel name, key); see `joinChannelsGet` for reading it as the Go map. -/
inductive Cmd where
  | UnknownCommand (command : Str) (args : List Str)
  | PingCommand (server server2 : Str)
  | PongCommand (server1 server2 : Str)
  | PassCommand (password : Str)
  | NickCommand (nickname : Str)
  | UserMsgCommand (user : Str) (mode : Nat) (unused realname : Str)
  | QuitCommand (message : Str)
  | JoinCommand (channels : List (Str × Str)) (zero : Bool)
  | PartCommand (channels : List Str) (message : Str)
  | PrivMsgCommand (target message : Str)
  | TopicCommand (channel topic : Str)
  | ModeCommand (nickname : Str) (changes : List ModeChange)
  | ChannelModeCommand (channel : Str)
  | WhoisCommand (target : Str) (masks : List Str)
  | WhoCommand (mask : Str) (operatorOnly : Bool)
  deriving DecidableEq

instance {ε α : Type} [DecidableEq ε] [DecidableEq α] :
    DecidableEq (Except ε α) := fun x y =>
  match x, y with
  | .ok a, .ok b =>
    if h : a = b then .isTrue (congrArg Except.ok h)
    else .isFalse (fun hh => h (Except.ok.inj hh))
  | .error a, .error b =>
    if h : a = b then .isTrue (congrArg Except.error h)
    else .isFalse (fun hh => h (Except.error.inj hh))
  | .ok _, .error _ => .isFalse (fun hh => Except.noConfusion hh)
  | .error _, .ok _ => .isFalse (fun hh => Except.noConfusion hh)

/-- Reading the JoinCommand channel map at name `c`: the Go map is the
result of the stored assignment sequence, a later assignment to the same
channel name overwriting an earlier one. -/
def joinChannelsGet (entries : List (Str × Str)) (c : Str) : Option Str :=
  (entries.foldl (fun m p => fun x => if x = p.1 then some p.2 else m x)
    (fun _ => none)) c

/-- The effect of strings.SplitN(line, " ", 2) as parseArg uses it: the
text before the first space, and the text after that space (empty when
the line has no space). -/
def splitN2Space (line : Str) : Str × Str :=
  (line.takeWhile (fun c => c ≠ ' '), (line.dropWhile (fun c => c ≠ ' ')).tail)

/-- Mirror of parseArg: an empty line yields an empty argument; a line
whose head is the trailing marker yields the whole remainder as the
argument and an empty rest; otherwise the line is split at the first
space. -/
def parseArg (line : Str) : Str × Str :=
  match line with
  | [] => ([], [])
  | c :: cs =>
    if c = ':' then (cs, [])
    else splitN2Space (c :: cs)

/-- The argument-peeling loop of parseLine, written with explicit fuel;
the rest returned by parseArg is strictly shorter than its input when
the peeled argument is nonempty, so fuel `line.length + 1` never runs
out (`parseArgsFuel_eq_parseArgs`). -/
def parseArgsFuel : Nat → Str → List Str
  | 0, _ => []
  | fuel + 1, line =>
    if (parseArg line).1 = [] then []
    else (parseArg line).1 :: parseArgsFuel fuel (parseArg line).2

/-- The argument list the parseLine loop accumulates for a raw line. -/
def parseArgs (line : Str) : List Str :=
  parseArgsFuel (line.length + 1) line

/-- The case ranges of the Unicode simple upper-case mapping, the table
behind unicode.ToUpper of the Go standard library (which strings.ToUpper
applies code point by code point): entries (lo, hi, stride, delta),
generated from the Unicode character database, map every code point in
lo..hi at the given stride by delta; code points matched by no entry are
their own upper case.  The ASCII block is handled directly in
`goToUpper` and omitted here. -/
def goUpperRanges : List (Nat × Nat × Nat × Int) :=
  [
    (0xB5, 0xB5, 1, 743), (0xE0, 0xF6, 1, -32), (0xF8, 0xFE, 1, -32),
    (0xFF, 0xFF, 1, 121), (0x101, 0x12F, 2, -1), (0x131, 0x131, 1, -232),
    (0x133, 0x137, 2, -1), (0x13A, 0x148, 2, -1), (0x14B, 0x177, 2, -1),
    (0x17A, 0x17E, 2, -1), (0x17F, 0x17F, 1, -300), (0x180, 0x180, 1, 195),
    (0x183, 0x185, 2, -1), (0x188, 0x188, 1, -1), (0x18C, 0x18C, 1, -1),
    (0x192, 0x192, 1, -1), (0x195, 0x195, 1, 97), (0x199, 0x199, 1, -1),
    (0x19A, 0x19A, 1, 163), (0x19E, 0x19E, 1, 130), (0x1A1, 0x1A5, 2, -1),
    (0x1A8, 0x1A8, 1, -1), (0x1AD, 0x1AD, 1, -1), (0x1B0, 0x1B0, 1, -1),
    (0x1B4, 0x1B6, 2, -1), (0x1B9, 0x1B9, 1, -1), (0x1BD, 0x1BD, 1, -1),
    (0x1BF, 0x1BF, 1, 56), (0x1C5, 0x1C5, 1, -1), (0x1C6, 0x1C6, 1, -2),
    (0x1C8, 0x1C8, 1, -1), (0x1C9, 0x1C9, 1, -2), (0x1CB, 0x1CB, 1, -1),
    (0x1CC, 0x1CC, 1, -2), (0x1CE, 0x1DC, 2, -1), (0x1DD, 0x1DD, 1, -79),
    (0x1DF, 0x1EF, 2, -1), (0x1F2, 0x1F2, 1, -1), (0x1F3, 0x1F3, 1, -2),
    (0x1F5, 0x1F5, 1, -1), (0x1F9, 0x21F, 2, -1), (0x223, 0x233, 2, -1),
    (0x23C, 0x23C, 1, -1), (0x23F, 0x240, 1, 10815), (0x242, 0x242, 1, -1),
    (0x247, 0x24F, 2, -1), (0x250, 0x250, 1, 10783), (0x251, 0x251, 1, 10780),
    (0x252, 0x252, 1, 10782), (0x253, 0x253, 1, -210), (0x254, 0x254, 1, -206),
    (0x256, 0x257, 1, -205), (0x259, 0x259, 1, -202), (0x25B, 0x25B, 1, -203),
    (0x25C, 0x25C, 1, 42319), (0x260, 0x260, 1, -205), (0x261, 0x261, 1, 42315),
    (0x263, 0x263, 1, -207), (0x265, 0x265, 1, 42280), (0x266, 0x266, 1, 42308),
    (0x268, 0x268, 1, -209), (0x269, 0x269, 1, -211), (0x26A, 0x26A, 1, 42308),
    (0x26B, 0x26B, 1, 10743), (0x26C, 0x26C, 1, 42305), (0x26F, 0x26F, 1, -211),
    (0x271, 0x271, 1, 10749), (0x272, 0x272, 1, -213), (0x275, 0x275, 1, -214),
    (0x27D, 0x27D, 1, 10727), (0x280, 0x280, 1, -218), (0x282, 0x282, 1, 42307),
    (0x283, 0x283, 1, -218), (0x287, 0x287, 1, 42282), (0x288, 0x288, 1, -218),
    (0x289, 0x289, 1, -69), (0x28A, 0x28B, 1, -217), (0x28C, 0x28C, 1, -71),
    (0x292, 0x292, 1, -219), (0x29D, 0x29D, 1, 42261), (0x29E, 0x29E, 1, 42258),
    (0x345, 0x345, 1, 84), (0x371, 0x373, 2, -1), (0x377, 0x377, 1, -1),
    (0x37B, 0x37D, 1, 130), (0x3AC, 0x3AC, 1, -38), (0x3AD, 0x3AF, 1, -37),
    (0x3B1, 0x3C1, 1, -32), (0x3C2, 0x3C2, 1, -31), (0x3C3, 0x3CB, 1, -32),
    (0x3CC, 0x3CC, 1, -64), (0x3CD, 0x3CE, 1, -63), (0x3D0, 0x3D0, 1, -62),
    (0x3D1, 0x3D1, 1, -57), (0x3D5, 0x3D5, 1, -47), (0x3D6, 0x3D6, 1, -54),
    (0x3D7, 0x3D7, 1, -8), (0x3D9, 0x3EF, 2, -1), (0x3F0, 0x3F0, 1, -86),
    (0x3F1, 0x3F1, 1, -80), (0x3F2, 0x3F2, 1, 7), (0x3F3, 0x3F3, 1, -116),
    (0x3F5, 0x3F5, 1, -96), (0x3F8, 0x3F8, 1, -1), (0x3FB, 0x3FB, 1, -1),
    (0x430, 0x44F, 1, -32), (0x450, 0x45F, 1, -80), (0x461, 0x481, 2, -1),
    (0x48B, 0x4BF, 2, -1), (0x4C2, 0x4CE, 2, -1), (0x4CF, 0x4CF, 1, -15),
    (0x4D1, 0x52F, 2, -1), (0x561, 0x586, 1, -48), (0x10D0, 0x10FA, 1, 3008),
    (0x10FD, 0x10FF, 1, 3008), (0x13F8, 0x13FD, 1, -8), (0x1C80, 0x1C80, 1, -6254),
    (0x1C81, 0x1C81, 1, -6253), (0x1C82, 0x1C82, 1, -6244), (0x1C83, 0x1C84, 1, -6242),
    (0x1C85, 0x1C85, 1, -6243), (0x1C86, 0x1C86, 1, -6236), (0x1C87, 0x1C87, 1, -6181),
    (0x1C88, 0x1C88, 1, 35266), (0x1D79, 0x1D79, 1, 35332), (0x1D7D, 0x1D7D, 1, 3814),
    (0x1D8E, 0x1D8E, 1, 35384), (0x1E01, 0x1E95, 2, -1), (0x1E9B, 0x1E9B, 1, -59),
    (0x1EA1, 0x1EFF, 2, -1), (0x1F00, 0x1F07, 1, 8), (0x1F10, 0x1F15, 1, 8),
    (0x1F20, 0x1F27, 1, 8), (0x1F30, 0x1F37, 1, 8), (0x1F40, 0x1F45, 1, 8),
    (0x1F51, 0x1F57, 2, 8), (0x1F60, 0x1F67, 1, 8), (0x1F70, 0x1F71, 1, 74),
    (0x1F72, 0x1F75, 1, 86), (0x1F76, 0x1F77, 1, 100), (0x1F78, 0x1F79, 1, 128),
    (0x1F7A, 0x1F7B, 1, 112), (0x1F7C, 0x1F7D, 1, 126), (0x1F80, 0x1F87, 1, 8),
    (0x1F90, 0x1F97, 1, 8), (0x1FA0, 0x1FA7, 1, 8), (0x1FB0, 0x1FB1, 1, 8),
    (0x1FB3, 0x1FB3, 1, 9), (0x1FBE, 0x1FBE, 1, -7205), (0x1FC3, 0x1FC3, 1, 9),
    (0x1FD0, 0x1FD1, 1, 8), (0x1FE0, 0x1FE1, 1, 8), (0x1FE5, 0x1FE5, 1, 7),
    (0x1FF3, 0x1FF3, 1, 9), (0x214E, 0x214E, 1, -28), (0x2170, 0x217F, 1, -16),
    (0x2184, 0x2184, 1, -1), (0x24D0, 0x24E9, 1, -26), (0x2C30, 0x2C5F, 1, -48),
    (0x2C61, 0x2C61, 1, -1), (0x2C65, 0x2C65, 1, -10795), (0x2C66, 0x2C66, 1, -10792),
    (0x2C68, 0x2C6C, 2, -1), (0x2C73, 0x2C73, 1, -1), (0x2C76, 0x2C76, 1, -1),
    (0x2C81, 0x2CE3, 2, -1), (0x2CEC, 0x2CEE, 2, -1), (0x2CF3, 0x2CF3, 1, -1),
    (0x2D00, 0x2D25, 1, -7264), (0x2D27, 0x2D27, 1, -7264), (0x2D2D, 0x2D2D, 1, -7264),
    (0xA641, 0xA66D, 2, -1), (0xA681, 0xA69B, 2, -1), (0xA723, 0xA72F, 2, -1),
    (0xA733, 0xA76F, 2, -1), (0xA77A, 0xA77C, 2, -1), (0xA77F, 0xA787, 2, -1),
    (0xA78C, 0xA78C, 1, -1), (0xA791, 0xA793, 2, -1), (0xA794, 0xA794, 1, 48),
    (0xA797, 0xA7A9, 2, -1), (0xA7B5, 0xA7C3, 2, -1), (0xA7C8, 0xA7CA, 2, -1),
    (0xA7D1, 0xA7D1, 1, -1), (0xA7D7, 0xA7D9, 2, -1), (0xA7F6, 0xA7F6, 1, -1),
    (0xAB53, 0xAB53, 1, -928), (0xAB70, 0xABBF, 1, -38864), (0xFF41, 0xFF5A, 1, -32),
    (0x10428, 0x1044F, 1, -40), (0x104D8, 0x104FB, 1, -40), (0x10597, 0x105A1, 1, -39),
    (0x105A3, 0x105B1, 1, -39), (0x105B3, 0x105B9, 1, -39), (0x105BB, 0x105BC, 1, -39),
    (0x10CC0, 0x10CF2, 1, -64), (0x118C0, 0x118DF, 1, -32), (0x16E60, 0x16E7F, 1, -32),
    (0x1E922, 0x1E943, 1, -34)
  ]

/-- The delta the case table applies to code point n: that of the first
entry whose range and stride cover n, zero when none does. -/
def goUpperDelta : List (Nat × Nat × Nat × Int) → Nat → Int
  | [], _ => 0
  | (lo, hi, stride, delta) :: rest, n =>
    if lo ≤ n ∧ n ≤ hi ∧ (n - lo) % stride = 0 then delta
    else goUpperDelta rest n

/-- The Unicode simple upper-case mapping of one code point, as
unicode.ToUpper of the Go standard library computes it: the ASCII range
directly, every other code point through the case table. -/
def goToUpper (c : Char) : Char :=
  let n := c.toNat
  if n < 0x80 then
    if 0x61 ≤ n ∧ n ≤ 0x7A then Char.ofNat (n - 0x20) else c
  else
    Char.ofNat (Int.toNat (Int.ofNat n + goUpperDelta goUpperRanges n))

/-- Mirror of parseLine.  The Go code indexes args[0] unconditionally;
when the loop peeled no argument (empty or all-whitespace line) that
access is out of range and the program panics, modelled as `none`. -/
def parseLine (line : Str) : Option (Str × List Str) :=
  match parseArgs line with
  | [] => none
  | a :: rest => some (a.map goToUpper, rest)

/-- The effect of strconv.ParseUint(s, 10, 8): `none` when the token is
empty, holds a non-digit code point, or exceeds 8 bits (Go returns a
non-nil error in each of those cases); otherwise the decimal value. -/
def parseUint8 (s : Str) : Option Nat :=
  if s = [] then none
  else if s.all (fun c => c.isDigit) then
    let v := s.foldl (fun acc c => acc * 10 + (c.toNat - 48)) 0
    if v ≤ 255 then some v else none
  else none

/-- The effect of strings.Split(s, ","): the comma-separated pieces of
`s`, always at least one (Split of the empty string is one empty piece). -/
def splitComma : Str → List Str
  | [] => [[]]
  | c :: cs =>
    if c = ',' then [] :: splitComma cs
    else
      match splitComma cs with
      | t :: ts => (c :: t) :: ts
      | [] => [[c]]

/-- Mirror of NewUnknownCommand (it cannot fail). -/
def NewUnknownCommand (command : Str) (args : List Str) : Cmd :=
  Cmd.UnknownCommand command args

/-- Mirror of NewPingCommand: at least one argument, optional second. -/
def NewPingCommand (args : List Str) : Option (Except CmdError Cmd) :=
  match args with
  | [] => some (.error .NotEnoughArgsError)
  | a0 :: rest => some (.ok (.PingCommand a0 (rest.headD [])))

/-- Mirror of NewPongCommand: at least one argument, optional second. -/
def NewPongCommand (args : List Str) : Option (Except CmdError Cmd) :=
  match args with
  | [] => some (.error .NotEnoughArgsError)
  | a0 :: rest => some (.ok (.PongCommand a0 (rest.headD [])))

/-- Mirror of NewPassCommand: at least one argument. -/
def NewPassCommand (args : List Str) : Option (Except CmdError Cmd) :=
  match args with
  | [] => some (.error .NotEnoughArgsError)
  | a0 :: _ => some (.ok (.PassCommand a0))

/-- Mirror of NewNickCommand: exactly one argument. -/
def NewNickCommand (args : List Str) : Option (Except CmdError Cmd) :=
  if args.length ≠ 1 then some (.error .NotEnoughArgsError)
  else some (.ok (.NickCommand (args.headD [])))

/-- Mirror of NewUserMsgCommand: exactly four arguments; the mode token
is parsed leniently, the field staying 0 when ParseUint reports an
error. -/
def NewUserMsgCommand (args : List Str) : Option (Except CmdError Cmd) :=
  match args with
  | [u, m, un, r] =>
    some (.ok (.UserMsgCommand u ((parseUint8 m).getD 0) un r))
  | _ => some (.error .NotEnoughArgsError)

/-- Mirror of NewQuitCommand: optional message. -/
def NewQuitCommand (args : List Str) : Option (Except CmdError Cmd) :=
  some (.ok (.QuitCommand (args.headD [])))

/-- Mirror of NewJoinCommand.  The Go code allocates a key slice of the
channel count and then writes every piece of Split(args[1], ",") into
it by index; when there are more key pieces than channels the write at
the channel count is out of range and the program panics (`none`).
Otherwise the key slice is the key pieces padded with empty strings,
and the map assignments pair channels and keys by position. -/
def NewJoinCommand (args : List Str) : Option (Except CmdError Cmd) :=
  match args with
  | [] => some (.error .NotEnoughArgsError)
  | a0 :: rest =>
    if a0 = str "0" then some (.ok (.JoinCommand [] true))
    else
      let channels := splitComma a0
      let keyTokens :=
        match rest with
        | [] => []
        | a1 :: _ => splitComma a1
      if channels.length < keyTokens.length then none
      else
        let keys := keyTokens ++
          List.replicate (channels.length - keyTokens.length) ([] : Str)
        some (.ok (.JoinCommand (channels.zip keys) false))

/-- Mirror of NewPartCommand: comma-separated channels, optional
message. -/
def NewPartCommand (args : List Str) : Option (Except CmdError Cmd) :=
  match args with
  | [] => some (.error .NotEnoughArgsError)
  | a0 :: rest => some (.ok (.PartCommand (splitComma a0) (rest.headD [])))

/-- Mirror of NewPrivMsgCommand: target and message both required. -/
def NewPrivMsgCommand (args : List Str) : Option (Except CmdError Cmd) :=
  match args with
  | t :: m :: _ => some (.ok (.PrivMsgCommand t m))
  | _ => some (.error .NotEnoughArgsError)

/-- Mirror of NewTopicCommand: channel required, topic optional. -/
def NewTopicCommand (args : List Str) : Option (Except CmdError Cmd) :=
  match args with
  | [] => some (.error .NotEnoughArgsError)
  | a0 :: rest => some (.ok (.TopicCommand a0 (rest.headD [])))

/-- The decode described by the design for one flag-token: every code
point after the leading sign becomes one change whose `add` is true
exactly when the leading sign is the plus marker.  Stated for comparison
with the decoder actually implemented (`decodeModeTokens`). -/
def specTokenChanges : Str → List ModeChange
  | [] => []
  | sig :: flags => flags.map (fun c => { mode := c, add := sig == '+' })

/-- Mirror of the token loop of NewUserModeCommand.  `cap` is the length
of the preallocated changes slice and `idx` the running write index.
An empty token hands the decoder the zero rune (the rune channel closes
at once), which is not a sign, so it fails like any unsigned token; a
write at an index not below `cap` is out of range and the program
panics (`none`).  On success the slice holds exactly the concatenation
of each token's per-character changes. -/
def decodeModeTokens (cap : Nat) : Nat → List Str → Option (Except CmdError (List ModeChange))
  | _, [] => some (.ok [])
  | idx, tok :: toks =>
    match tok with
    | [] => some (.error .ErrParseCommand)
    | sig :: flags =>
      if sig = '+' ∨ sig = '-' then
        if flags ≠ [] ∧ cap < idx + flags.length then none
        else
          (decodeModeTokens cap (idx + flags.length) toks).map
            (Except.map (fun rest =>
              flags.map (fun m => ModeChange.mk m (sig == '+')) ++ rest))
      else some (.error .ErrParseCommand)

/-- Mirror of NewUserModeCommand: `none` when args is empty (args[0] is
out of range) or when the changes slice would get a negative length
(total rune count of the flag-tokens below the token count makes the
`make` argument negative, a panic); otherwise the token loop runs with
the preallocated capacity. -/
def NewUserModeCommand (args : List Str) : Option (Except CmdError Cmd) :=
  match args with
  | [] => none
  | nickname :: flagTokens =>
    let totalRunes := (flagTokens.map List.length).sum
    if totalRunes < flagTokens.length then none
    else
      (decodeModeTokens (totalRunes - flagTokens.length) 0 flagTokens).map
        (Except.map (fun changes => Cmd.ModeCommand nickname changes))

/-- Mirror of NewChannelModeCommand: a stub storing the channel name;
`none` models the args[0] access on an empty list (its caller guards
this). -/
def NewChannelModeCommand (args : List Str) : Option (Except CmdError Cmd) :=
  match args with
  | [] => none
  | channel :: _ => some (.ok (.ChannelModeCommand channel))

/-- Modelled from the spec: the predicate IsChannel is defined outside
the parsing layer's sources (the channel module); the design calls it an
external predicate recognizing room identifiers, and room identifiers in
the wire grammar and examples begin with a channel sigil. -/
def IsChannel (target : Str) : Bool :=
  target.head? == some '#' || target.head? == some '&'

/-- Mirror of NewModeCommand, parameterized by the external room
predicate (instantiated with `IsChannel` in the registry): at least one
argument, then the channel or user constructor by the first argument. -/
def NewModeCommand (isChannel : Str → Bool) (args : List Str) :
    Option (Except CmdError Cmd) :=
  match args with
  | [] => some (.error .NotEnoughArgsError)
  | a0 :: _ =>
    if isChannel a0 then NewChannelModeCommand args
    else NewUserModeCommand args

/-- Mirror of NewWhoisCommand: one argument is the mask list, two or
more make the first the target and the second the mask list. -/
def NewWhoisCommand (args : List Str) : Option (Except CmdError Cmd) :=
  match args with
  | [] => some (.error .NotEnoughArgsError)
  | [masks] => some (.ok (.WhoisCommand [] (splitComma masks)))
  | target :: masks :: _ => some (.ok (.WhoisCommand target (splitComma masks)))

/-- Mirror of NewWhoCommand: optional mask; operatorOnly exactly when a
second argument equal to the literal "o" is present. -/
def NewWhoCommand (args : List Str) : Option (Except CmdError Cmd) :=
  match args with
  | [] => some (.ok (.WhoCommand [] false))
  | [mask] => some (.ok (.WhoCommand mask false))
  | mask :: a1 :: _ => some (.ok (.WhoCommand mask (a1 == str "o")))

/-- Mirror of the parseCommandFuncs registry: the constructor for each
supported verb, `none` for any other verb. -/
def parseCommandFuncs (verb : Str) : Option (List Str → Option (Except CmdError Cmd)) :=
  if verb = str "JOIN" then some NewJoinCommand
  else if verb = str "MODE" then some (NewModeCommand IsChannel)
  else if verb = str "NICK" then some NewNickCommand
  else if verb = str "PART" then some NewPartCommand
  else if verb = str "PASS" then some NewPassCommand
  else if verb = str "PING" then some NewPingCommand
  else if verb = str "PONG" then some NewPongCommand
  else if verb = str "PRIVMSG" then some NewPrivMsgCommand
  else if verb = str "QUIT" then some NewQuitCommand
  else if verb = str "TOPIC" then some NewTopicCommand
  else if verb = str "USER" then some NewUserMsgCommand
  else if verb = str "WHO" then some NewWhoCommand
  else if verb = str "WHOIS" then some NewWhoisCommand
  else none

/-- Mirror of ParseCommand: tokenize, look the upper-cased verb up in
the registry, fall through to the passthrough value when absent; a
tokenizer panic propagates. -/
def ParseCommand (line : Str) : Option (Except CmdError Cmd) :=
  match parseLine line with
  | none => none
  | some (command, args) =>
    match parseCommandFuncs command with
    | none => some (.ok (NewUnknownCommand command args))
    | some constructor => constructor args

/-- The rest returned by parseArg is strictly shorter than the line
whenever the peeled argument is nonempty. -/
theorem parseArg_rest_length_lt (line : Str) (h : (parseArg line).1 ≠ []) :
    (parseArg line).2.length < line.length := by
  match line with
  | [] => simp [parseArg] at h
  | c :: cs =>
    by_cases hc : c = ':'
    · simp [parseArg, hc]
    · have hsuf : ((c :: cs).dropWhile (fun x => x ≠ ' ')).length ≤ (c :: cs).length :=
        (List.dropWhile_suffix _).length_le
      simp only [parseArg, if_neg hc, splitN2Space]
      rw [List.length_tail]
      simp only [List.length_cons] at *
      omega

/-- Any fuel above the line length computes the same argument list, so
`parseArgs` is the exact value of the unbounded Go loop. -/
theorem parseArgsFuel_sufficient : ∀ (fuel : Nat) (line : Str), line.length < fuel →
    parseArgsFuel fuel line = parseArgs line := by
  intro fuel
  induction fuel using Nat.strong_induction_on with
  | _ fuel ih =>
    intro line h
    obtain ⟨f, rfl⟩ : ∃ f, fuel = f + 1 := ⟨fuel - 1, by omega⟩
    rw [parseArgs]
    rw [parseArgsFuel, parseArgsFuel]
    by_cases hp : (parseArg line).1 = []
    · simp [hp]
    · have hrest := parseArg_rest_length_lt line hp
      rw [if_neg hp, if_neg hp,
        ih f (by omega) (parseArg line).2 (by omega),
        ih line.length (by omega) (parseArg line).2 (by omega)]

/-- Lifting a pure function over the payload of an optional fallible
result neither creates nor destroys a given error value. -/
theorem optionExceptMap_eq_error {α β : Type} (f : α → β)
    (x : Option (Except CmdError α)) (e : CmdError) :
    x.map (Except.map f) = some (.error e) ↔ x = some (.error e) := by
  cases x with
  | none => simp
  | some r =>
    cases r with
    | ok a => simp [Except.map]
    | error e2 => simp [Except.map]

/-- For nonempty tokens, the per-token tail lengths and the token count
sum back to the total rune count. -/
theorem sum_tail_lengths (toks : List Str) (h : ∀ t ∈ toks, t ≠ []) :
    (toks.map (fun t => t.length - 1)).sum + toks.length = (toks.map List.length).sum := by
  induction toks with
  | nil => simp
  | cons t ts ih =>
    have ht : t ≠ [] := h t (by simp)
    have h1 : 0 < t.length := List.length_pos.mpr ht
    have ih2 := ih (fun x hx => h x (by simp [hx]))
    simp only [List.map_cons, List.sum_cons, List.length_cons]
    omega

/-- When every token opens with a sign marker and the write indices stay
within the preallocated capacity, the token loop returns the
concatenation of each token's design-level decode. -/
theorem decodeModeTokens_ok (toks : List Str) : ∀ (cap idx : Nat),
    (∀ t ∈ toks, t.head? = some '+' ∨ t.head? = some '-') →
    idx + (toks.map (fun t => t.length - 1)).sum ≤ cap →
    decodeModeTokens cap idx toks = some (.ok (toks.flatMap specTokenChanges)) := by
  induction toks with
  | nil => intro cap idx _ _; rfl
  | cons tok toks ih =>
    intro cap idx h hcap
    match tok, h tok (by simp) with
    | sig :: flags, hsig =>
      have hsig2 : sig = '+' ∨ sig = '-' := by
        rcases hsig with h2 | h2
        · left; simpa using h2
        · right; simpa using h2
      simp only [List.map_cons, List.sum_cons, List.length_cons,
        Nat.add_sub_cancel] at hcap
      simp only [decodeModeTokens]
      rw [if_pos hsig2, if_neg (by
        rintro ⟨-, hlt⟩
        omega)]
      rw [ih cap (idx + flags.length) (fun t ht => h t (by simp [ht])) (by omega)]
      simp [Except.map, specTokenChanges]

/-- With nonempty tokens and enough capacity, the token loop reports the
malformed-command error exactly when some token lacks a leading sign. -/
theorem decodeModeTokens_error_iff (toks : List Str) : ∀ (cap idx : Nat),
    (∀ t ∈ toks, t ≠ []) →
    idx + (toks.map (fun t => t.length - 1)).sum ≤ cap →
    (decodeModeTokens cap idx toks = some (.error .ErrParseCommand) ↔
      ∃ t ∈ toks, ¬(t.head? = some '+' ∨ t.head? = some '-')) := by
  induction toks with
  | nil => intro cap idx _ _; simp [decodeModeTokens]
  | cons tok toks ih =>
    intro cap idx h hcap
    match tok, h tok (by simp) with
    | sig :: flags, _ =>
      simp only [List.map_cons, List.sum_cons, List.length_cons,
        Nat.add_sub_cancel] at hcap
      simp only [decodeModeTokens]
      by_cases hsig : sig = '+' ∨ sig = '-'
      · rw [if_pos hsig, if_neg (by
          rintro ⟨-, hlt⟩
          omega)]
        rw [optionExceptMap_eq_error,
          ih cap (idx + flags.length) (fun t ht => h t (by simp [ht])) (by omega)]
        rw [List.exists_mem_cons_iff]
        constructor
        · exact fun hx => Or.inr hx
        · rintro (hbad | hx)
          · exact absurd hsig (by simpa using hbad)
          · exact hx
      · rw [if_neg hsig]
        constructor
        · exact fun _ => ⟨sig :: flags, by simp, by simpa using hsig⟩
        · exact fun _ => rfl

/-- Reading the assignment-sequence model of the Go channel map returns
the key of the last assignment to the requested name. -/
theorem joinChannelsGet_last (entries : List (Str × Str)) (c : Str) :
    joinChannelsGet entries c =
      (entries.reverse.find? (fun p => decide (p.1 = c))).map Prod.snd := by
  induction entries using List.reverseRecOn with
  | nil => rfl
  | append_singleton es p ih =>
    simp only [joinChannelsGet, List.foldl_append, List.foldl_cons, List.foldl_nil,
      List.reverse_append, List.reverse_cons, List.reverse_nil, List.nil_append,
      List.cons_append, List.find?]
    by_cases hc : c = p.1
    · simp [hc]
    · have hc2 : ¬(p.1 = c) := fun h2 => hc h2.symm
      simp only [hc, if_false, decide_eq_true_eq, hc2, decide_False]
      simpa [joinChannelsGet] using ih

/-- Claim C1 (code bug): a line with no tokens at all is not handled
defensively.  On the empty and on all-whitespace lines the tokenizer
peels no argument, and parseLine's unconditional read of the first
element of the empty argument list is out of range: the program panics
(modelled as `none`) instead of returning any parse-failure value. -/
theorem c1_no_token_line_crashes :
    ParseCommand (str "") = none ∧ ParseCommand (str " ") = none ∧
      ParseCommand (str "   ") = none := by decide

/-- Claim C2 (code bug): JOIN with more keys than channels is not
handled by ignoring the extras.  With channels "#a" and keys "k1,k2"
the key-filling loop writes index 1 of a one-element slice, which is
out of range: the program panics (modelled as `none`) instead of
producing the mapping from "#a" to "k1". -/
theorem c2_join_excess_keys_crash :
    NewJoinCommand [str "#a", str "k1,k2"] = none ∧
      ParseCommand (str "JOIN #a k1,k2") = none := by decide

/-- Claim C3, counterexample: decoding MODE someuser "+iw-o" does not
yield the three changes with the sign flipped at the mid-token minus;
the decoder's result differs from that claimed value. -/
theorem c3_counterexample :
    NewUserModeCommand [str "someuser", str "+iw-o"] ≠
      some (.ok (.ModeCommand (str "someuser")
        [⟨'i', true⟩, ⟨'w', true⟩, ⟨'o', false⟩])) := by decide

/-- Claim C3 as amended: only the first character of a flag-token is
read as a sign; a sign character appearing mid-token is emitted as an
ordinary flag under the current sign, so MODE someuser "+iw-o" yields
the four changes adding i, w, the minus character, and o. -/
theorem c3_mid_token_sign_is_flag :
    NewUserModeCommand [str "someuser", str "+iw-o"] =
      some (.ok (.ModeCommand (str "someuser")
        [⟨'i', true⟩, ⟨'w', true⟩, ⟨'-', true⟩, ⟨'o', true⟩])) := by decide

/-- Claim C4: when every flag-token opens with a sign marker, the
decoder emits one change per character after the first, in encounter
order across the tokens in argument order, the addition bit set by that
token's own leading sign (no carry-over between tokens); iteration is
by code point, which is what the rune-sequence carrier `Str` models. -/
theorem c4_user_mode_decode (nickname : Str) (flagTokens : List Str)
    (h : ∀ t ∈ flagTokens, t.head? = some '+' ∨ t.head? = some '-') :
    NewUserModeCommand (nickname :: flagTokens) =
      some (.ok (.ModeCommand nickname (flagTokens.flatMap specTokenChanges))) := by
  have hne : ∀ t ∈ flagTokens, t ≠ [] := by
    intro t ht heq
    rcases h t ht with h2 | h2 <;> simp [heq] at h2
  have hsum := sum_tail_lengths flagTokens hne
  simp only [NewUserModeCommand]
  rw [if_neg (show ¬((flagTokens.map List.length).sum < flagTokens.length) by omega)]
  rw [decodeModeTokens_ok flagTokens _ 0 h (by omega)]
  simp [Except.map]

/-- Witness for C4 at a concrete input, with a multi-byte flag
character decoded as a single flag. -/
theorem c4_witness :
    NewUserModeCommand [str "alice", str "+iw", str "-o", str "+λ"] =
      some (.ok (.ModeCommand (str "alice")
        [⟨'i', true⟩, ⟨'w', true⟩, ⟨'o', false⟩, ⟨'λ', true⟩])) := by
  have h := c4_user_mode_decode (str "alice") [str "+iw", str "-o", str "+λ"] (by decide)
  exact h.trans (by decide)

/-- Claim C5: the parse-failure error arises exactly when some
user-mode flag-token's first character is not a sign marker, and from
nowhere else: every other constructor never returns that error, and the
MODE dispatcher returns it only out of the user-mode branch, whatever
the external room predicate is. -/
theorem c5_err_parse_only_from_user_mode :
    (∀ (nickname : Str) (flagTokens : List Str), (∀ t ∈ flagTokens, t ≠ []) →
      (NewUserModeCommand (nickname :: flagTokens) = some (.error .ErrParseCommand) ↔
        ∃ t ∈ flagTokens, ¬(t.head? = some '+' ∨ t.head? = some '-'))) ∧
    (∀ args, NewPingCommand args ≠ some (.error .ErrParseCommand)) ∧
    (∀ args, NewPongCommand args ≠ some (.error .ErrParseCommand)) ∧
    (∀ args, NewPassCommand args ≠ some (.error .ErrParseCommand)) ∧
    (∀ args, NewNickCommand args ≠ some (.error .ErrParseCommand)) ∧
    (∀ args, NewUserMsgCommand args ≠ some (.error .ErrParseCommand)) ∧
    (∀ args, NewQuitCommand args ≠ some (.error .ErrParseCommand)) ∧
    (∀ args, NewJoinCommand args ≠ some (.error .ErrParseCommand)) ∧
    (∀ args, NewPartCommand args ≠ some (.error .ErrParseCommand)) ∧
    (∀ args, NewPrivMsgCommand args ≠ some (.error .ErrParseCommand)) ∧
    (∀ args, NewTopicCommand args ≠ some (.error .ErrParseCommand)) ∧
    (∀ args, NewChannelModeCommand args ≠ some (.error .ErrParseCommand)) ∧
    (∀ args, NewWhoisCommand args ≠ some (.error .ErrParseCommand)) ∧
    (∀ args, NewWhoCommand args ≠ some (.error .ErrParseCommand)) ∧
    (∀ (isChannel : Str → Bool) (args : List Str),
      NewModeCommand isChannel args = some (.error .ErrParseCommand) →
      ∃ a0 rest, args = a0 :: rest ∧ isChannel a0 = false ∧
        NewUserModeCommand args = some (.error .ErrParseCommand)) := by
  refine ⟨?_, ?_, ?_, ?_, ?_, ?_, ?_, ?_, ?_, ?_, ?_, ?_, ?_, ?_, ?_⟩
  · intro nickname flagTokens hne
    have hsum := sum_tail_lengths flagTokens hne
    simp only [NewUserModeCommand]
    rw [if_neg (show ¬((flagTokens.map List.length).sum < flagTokens.length) by omega)]
    rw [optionExceptMap_eq_error]
    exact decodeModeTokens_error_iff flagTokens _ 0 hne (by omega)
  · intro args; rcases args with _ | ⟨a0, rest⟩ <;> simp [NewPingCommand]
  · intro args; rcases args with _ | ⟨a0, rest⟩ <;> simp [NewPongCommand]
  · intro args; rcases args with _ | ⟨a0, rest⟩ <;> simp [NewPassCommand]
  · intro args; unfold NewNickCommand; split <;> simp
  · intro args
    rcases args with _ | ⟨a, _ | ⟨b, _ | ⟨c, _ | ⟨d, _ | ⟨e, t⟩⟩⟩⟩⟩ <;>
      simp [NewUserMsgCommand]
  · intro args; simp [NewQuitCommand]
  · intro args
    rcases args with _ | ⟨a0, rest⟩
    · simp [NewJoinCommand]
    · simp only [NewJoinCommand]
      split_ifs <;> simp
  · intro args; rcases args with _ | ⟨a0, rest⟩ <;> simp [NewPartCommand]
  · intro args; rcases args with _ | ⟨a, _ | ⟨b, r⟩⟩ <;> simp [NewPrivMsgCommand]
  · intro args; rcases args with _ | ⟨a0, rest⟩ <;> simp [NewTopicCommand]
  · intro args; rcases args with _ | ⟨a0, rest⟩ <;> simp [NewChannelModeCommand]
  · intro args; rcases args with _ | ⟨a, _ | ⟨b, r⟩⟩ <;> simp [NewWhoisCommand]
  · intro args; rcases args with _ | ⟨a, _ | ⟨b, r⟩⟩ <;> simp [NewWhoCommand]
  · intro isChannel args h
    rcases args with _ | ⟨a0, rest⟩
    · simp [NewModeCommand] at h
    · simp only [NewModeCommand] at h
      by_cases hch : isChannel a0
      · rw [if_pos hch] at h
        simp [NewChannelModeCommand] at h
      · rw [if_neg hch] at h
        exact ⟨a0, rest, rfl, by simpa using hch, h⟩

/-- Witness for C5: the flag-token "xo" has no leading sign, so the
user-mode constructor fails with the parse error. -/
theorem c5_witness :
    NewUserModeCommand [str "someuser", str "xo"] = some (.error .ErrParseCommand) :=
  (c5_err_parse_only_from_user_mode.1 (str "someuser") [str "xo"] (by decide)).mpr
    (by decide)

/-- Claim C6: NICK takes exactly one token and USER exactly four; any
other count, below or above, fails with the insufficient-arguments
error, and the exact count constructs the command. -/
theorem c6_exact_arity (args : List Str) :
    (args.length ≠ 1 → NewNickCommand args = some (.error .NotEnoughArgsError)) ∧
    (∀ n, args = [n] → NewNickCommand args = some (.ok (.NickCommand n))) ∧
    (args.length ≠ 4 → NewUserMsgCommand args = some (.error .NotEnoughArgsError)) ∧
    (∀ u m un r, args = [u, m, un, r] →
      NewUserMsgCommand args = some (.ok (.UserMsgCommand u ((parseUint8 m).getD 0) un r))) := by
  refine ⟨?_, ?_, ?_, ?_⟩
  · intro h; simp [NewNickCommand, h]
  · rintro n rfl; simp [NewNickCommand]
  · intro h
    rcases args with _ | ⟨a, _ | ⟨b, _ | ⟨c, _ | ⟨d, _ | ⟨e, t⟩⟩⟩⟩⟩
    · simp [NewUserMsgCommand]
    · simp [NewUserMsgCommand]
    · simp [NewUserMsgCommand]
    · simp [NewUserMsgCommand]
    · exact absurd rfl h
    · simp [NewUserMsgCommand]
  · rintro u m un r rfl; simp [NewUserMsgCommand]

/-- Witness for C6 at concrete inputs: two tokens to NICK fail, one
succeeds; one token to USER fails, four succeed. -/
theorem c6_witness :
    NewNickCommand [str "alice", str "bob"] = some (.error .NotEnoughArgsError) ∧
    NewNickCommand [str "alice"] = some (.ok (.NickCommand (str "alice"))) ∧
    NewUserMsgCommand [str "alice"] = some (.error .NotEnoughArgsError) ∧
    NewUserMsgCommand [str "alice", str "8", str "*", str "Alice"] =
      some (.ok (.UserMsgCommand (str "alice") 8 (str "*") (str "Alice"))) := by
  refine ⟨(c6_exact_arity _).1 (by decide), (c6_exact_arity _).2.1 _ rfl,
    (c6_exact_arity _).2.2.1 (by decide), ?_⟩
  exact ((c6_exact_arity _).2.2.2 (str "alice") (str "8") (str "*") (str "Alice")
    rfl).trans (by decide)

/-- Claim C7: a line whose first token upper-cases to a verb absent
from the registry parses, with no error, into the passthrough value
carrying the upper-cased verb and the remaining tokens unchanged. -/
theorem c7_unknown_verb_passthrough (line : Str) (first : Str) (rest : List Str)
    (htok : parseArgs line = first :: rest)
    (habsent : parseCommandFuncs (first.map goToUpper) = none) :
    ParseCommand line = some (.ok (.UnknownCommand (first.map goToUpper) rest)) := by
  simp [ParseCommand, parseLine, htok, habsent, NewUnknownCommand]

/-- Witness for C7: the unrecognized verbs FROB and, with a non-ASCII
cased letter, frobé parse into passthrough values carrying their
upper-cased spellings and their arguments. -/
theorem c7_witness :
    ParseCommand (str "FROB a b") =
      some (.ok (.UnknownCommand (str "FROB") [str "a", str "b"])) ∧
    ParseCommand (str "frobé a") =
      some (.ok (.UnknownCommand (str "FROBÉ") [str "a"])) := by
  have h1 := c7_unknown_verb_passthrough (str "FROB a b") (str "FROB")
    [str "a", str "b"] (by decide) (by rfl)
  have h2 := c7_unknown_verb_passthrough (str "frobé a") (str "frobé")
    [str "a"] (by decide) (by rfl)
  exact ⟨h1.trans (by decide), h2.trans (by decide)⟩

/-- Claim C8: with exactly four tokens, a mode token that does not
parse as an 8-bit decimal numeral never fails USER; the command is
built with the mode field at its zero default and the other three
fields verbatim. -/
theorem c8_user_mode_field_lenient (u m un r : Str) (h : parseUint8 m = none) :
    NewUserMsgCommand [u, m, un, r] = some (.ok (.UserMsgCommand u 0 un r)) := by
  simp [NewUserMsgCommand, h]

/-- Witness for C8 at the concrete input with a non-numeric mode
token. -/
theorem c8_witness :
    NewUserMsgCommand [str "alice", str "notanumber", str "*", str "Alice Example"] =
      some (.ok (.UserMsgCommand (str "alice") 0 (str "*") (str "Alice Example"))) :=
  c8_user_mode_field_lenient _ _ _ _ (by decide)

/-- Claim C9, counterexample: when the remainder after the trailing
marker is empty, no final argument is produced at all.  On "PING :"
the argument list is empty, not the one-element list holding the empty
string the claim calls for. -/
theorem c9_counterexample :
    parseLine (str "PING :") = some (str "PING", []) ∧
      parseLine (str "PING :") ≠ some (str "PING", [str ""]) := by decide

/-- Claim C9 as amended: when the remaining text starts with the
trailing marker and the remainder after the marker is nonempty, that
entire remainder becomes the final argument verbatim (embedded spaces
included) and tokenization stops; an empty remainder yields no further
argument.  The concrete PRIVMSG line shows the mid-line case. -/
theorem c9_trailing_remainder :
    (∀ t : Str, t ≠ [] → parseArgs (':' :: t) = [t]) ∧
    parseLine (str "PRIVMSG #room :hello there friend") =
      some (str "PRIVMSG", [str "#room", str "hello there friend"]) := by
  constructor
  · intro t ht
    show parseArgsFuel ((':' :: t).length + 1) (':' :: t) = [t]
    rw [parseArgsFuel]
    have hpa : parseArg (':' :: t) = (t, ([] : Str)) := by simp [parseArg]
    rw [hpa, if_neg (by simpa using ht)]
    simp [List.length_cons, parseArgsFuel, parseArg]
  · decide

/-- Witness for C9: a nonempty remainder after the marker is the one
final argument. -/
theorem c9_witness : parseArgs (':' :: str "hi there") = [str "hi there"] :=
  c9_trailing_remainder.1 (str "hi there") (by decide)

/-- Claim C10: a JOIN whose channel list repeats a name stores a single
entry for it, keyed by the key positionally paired with the last
occurrence: construction succeeds with the positional assignment
sequence, and reading the map returns the last matching assignment. -/
theorem c10_join_duplicate_channels (a0 a1 c : Str) (h0 : a0 ≠ str "0")
    (hlen : (splitComma a1).length ≤ (splitComma a0).length) :
    NewJoinCommand [a0, a1] =
      some (.ok (.JoinCommand ((splitComma a0).zip (splitComma a1 ++
        List.replicate ((splitComma a0).length - (splitComma a1).length) ([] : Str))) false)) ∧
    joinChannelsGet ((splitComma a0).zip (splitComma a1 ++
        List.replicate ((splitComma a0).length - (splitComma a1).length) ([] : Str))) c =
      (((splitComma a0).zip (splitComma a1 ++
        List.replicate ((splitComma a0).length - (splitComma a1).length) ([] : Str))).reverse.find?
        (fun p => decide (p.1 = c))).map Prod.snd := by
  constructor
  · simp [NewJoinCommand, h0, Nat.not_lt.mpr hlen]
  · exact joinChannelsGet_last _ _

/-- Witness for C10: channels "#a,#b,#a" with keys "k1,k2,k3" yield, at
"#a", the key of the last occurrence, k3. -/
theorem c10_witness :
    NewJoinCommand [str "#a,#b,#a", str "k1,k2,k3"] =
      some (.ok (.JoinCommand
        [(str "#a", str "k1"), (str "#b", str "k2"), (str "#a", str "k3")] false)) ∧
    joinChannelsGet
        [(str "#a", str "k1"), (str "#b", str "k2"), (str "#a", str "k3")] (str "#a") =
      some (str "k3") := by
  have h := c10_join_duplicate_channels (str "#a,#b,#a") (str "k1,k2,k3") (str "#a")
    (by decide) (by decide)
  exact ⟨h.1.trans (by decide), h.2.trans (by decide)⟩

end AtlChat
